import Mathlib

/-!
Shallow embedding of `mkdocs_advanced_seo/plugin.py` (class `AdvancedSEOPlugin`).

Python strings are Lean `String`s; Python `dict.get` reads of optional keys are
`Option String` fields; Python truthiness of a string is `s ≠ ""`, of an
optional value `≠ none` and `≠ some ""`.  The BeautifulSoup document is modelled
as a `Soup` record whose `<head>` is an optional list of appended `Tag`s; bs4
parsing/serialization is an external collaborator (spec §1) and is modelled by a
canonical renderer.  All definitions are executable.
-/

namespace AdvancedSEO

/-- Python `s.lstrip("/")`: drop every leading `'/'`. -/
def lstripSlash (s : String) : String := ⟨s.data.dropWhile (· == '/')⟩

/-- Python `s.rstrip("/")`: drop every trailing `'/'`. -/
def rstripSlash (s : String) : String := ⟨(s.data.reverse.dropWhile (· == '/')).reverse⟩

/-- Python `path.startswith('http')`. -/
def startsWithHttp (s : String) : Bool :=
  match s.data with
  | 'h' :: 't' :: 't' :: 'p' :: _ => true
  | _ => false

/-- Front-matter keys read by the plugin (`page.meta`); absence of a key is `none`.
`keywords` may hold a string or a sequence in Python. -/
inductive StrOrList where
  | str (s : String)
  | list (l : List String)
deriving DecidableEq, Repr

structure PageMeta where
  description : Option String
  keywords : Option StrOrList
  author : Option String
  image : Option String
  document_dates_created : Option String
  document_dates_updated : Option String
deriving DecidableEq, Repr

/-- An mkdocs nav ancestor: the code keeps an entry only when the object has both
a `url` and a `title` attribute (`hasattr` checks), modelled as optional fields. -/
structure Ancestor where
  url : Option String
  title : Option String
deriving DecidableEq, Repr

structure Page where
  url : String
  title : String
  is_homepage : Bool
  meta : PageMeta
  ancestors : List Ancestor
  src_path : String
deriving DecidableEq, Repr

/-- The mkdocs `config` dict as read by the plugin.  `site_name` and
`site_description` are read both with and without a default, so absence is
distinguished from the empty string; the other keys are only read via
`config.get(key, '')` / `config.get(key, [])`. -/
structure SiteConfig where
  site_name : Option String
  site_url : String
  site_description : Option String
  site_author : String
  tags : List String
  plugins : List String
deriving DecidableEq, Repr

/-- `self.config`: the plugin options from `config_scheme`. -/
structure PluginOptions where
  url_base : String
  use_canonical_url : Bool
  add_schema_org_json_ld : Bool
  use_open_graph : Bool
  og_type : String
  og_image : String
  og_locale : String
  use_twitter_cards : Bool
  twitter_card_type : String
  twitter_image : String
  twitter_creator : String
  twitter_site : String
  support_document_dates : Bool
deriving DecidableEq, Repr

/-- `self.config['url_base'] or config.get('site_url', '')` — the base-URL rule
shared by `_get_canonical_url`, `_resolve_url` and the breadcrumb root. -/
def baseUrl (opts : PluginOptions) (config : SiteConfig) : String :=
  if opts.url_base ≠ "" then opts.url_base else config.site_url

/-- `_get_page_title`: the page title unless empty or equal to the site name,
else the site name (`config.get('site_name', '')`). -/
def getPageTitle (page : Page) (config : SiteConfig) : String :=
  if page.title ≠ "" ∧ config.site_name ≠ some page.title then page.title
  else config.site_name.getD ""

/-- `_get_page_description`: front-matter `description` if the key is present;
else `site_description` when on the homepage and non-empty; else
`config.get('site_description', '')`. -/
def getPageDescription (page : Page) (config : SiteConfig) : String :=
  match page.meta.description with
  | some d => d
  | none =>
    if page.is_homepage ∧ config.site_description.getD "" ≠ "" then
      config.site_description.getD ""
    else
      config.site_description.getD ""

/-- `_get_canonical_url`: empty when the base is empty, else
`base.rstrip('/') + '/' + page.url.lstrip('/')`. -/
def getCanonicalUrl (opts : PluginOptions) (page : Page) (config : SiteConfig) : String :=
  let base := baseUrl opts config
  if base = "" then ""
  else rstripSlash base ++ "/" ++ lstripSlash page.url

/-- `_resolve_url`: pass absolute (`http…`) paths through, else join to the base. -/
def resolveUrl (opts : PluginOptions) (config : SiteConfig) (path : String) : String :=
  let base := baseUrl opts config
  if startsWithHttp path then path
  else rstripSlash base ++ "/" ++ lstripSlash path

/-- `'social' in config['plugins'] or 'material/social' in config['plugins']`. -/
def socialPluginActive (config : SiteConfig) : Prop :=
  "social" ∈ config.plugins ∨ "material/social" ∈ config.plugins

instance (config : SiteConfig) : Decidable (socialPluginActive config) := by
  unfold socialPluginActive; infer_instance

/-- The social-card slug: `page.url.rstrip('/')` with `.` mapped to `index`. -/
def socialSlug (url : String) : String :=
  let path := rstripSlash url
  if path = "." then "index" else path

/-- `_get_social_image`: front-matter `image`, else the mkdocs-material social-card
path when that plugin is active, else the configured `og_image`, else `None`. -/
def getSocialImage (opts : PluginOptions) (page : Page) (config : SiteConfig) : Option String :=
  match page.meta.image with
  | some img => some (resolveUrl opts config img)
  | none =>
    if socialPluginActive config then
      some (resolveUrl opts config ("assets/images/social/" ++ socialSlug page.url ++ ".png"))
    else if opts.og_image ≠ "" then
      some (resolveUrl opts config opts.og_image)
    else
      none

/-- `keywords = page.meta.get('keywords', []) or config.get('tags', [])`, lists
joined with `", "` (`_inject_basic_meta`). -/
def pyKeywords (m : Option StrOrList) (tags : List String) : String :=
  let kw : StrOrList :=
    match m with
    | some (.str s) => if s = "" then .list tags else .str s
    | some (.list l) => if l = [] then .list tags else .list l
    | none => .list tags
  match kw with
  | .str s => s
  | .list l => String.intercalate ", " l

/-! ### Date normalization (`_get_date` / `_parse_date_string`)

`_parse_date_string` delegates to `dateutil.parser.parse` and re-emits with
`datetime.isoformat()`.  Those are external libraries; following the spec §4.1
they are modelled as an executable parser/printer pair for the format the spec
requires (`YYYY-MM-DDTHH:MM:SS.ffffff±HH:MM`, fractional seconds optional): the
parser accepts at least that shape (with basic range checks, as `dateutil`
rejects out-of-range fields), and `isoformat` prints zero-padded fields, the
microseconds iff non-zero, and the UTC offset as `±HH:MM` (never `Z`). -/

/-- An aware Python `datetime` as produced by parsing an offset-carrying ISO
string; the UTC offset is kept in minutes. -/
structure PyDateTime where
  year : Nat
  month : Nat
  day : Nat
  hour : Nat
  minute : Nat
  second : Nat
  microsecond : Nat
  offMinutes : Int
deriving DecidableEq, Repr

def digitChar (n : Nat) : Char := Char.ofNat (48 + n)

def pad2 (n : Nat) : List Char := [digitChar (n / 10), digitChar (n % 10)]

def pad4 (n : Nat) : List Char :=
  [digitChar (n / 1000), digitChar (n / 100 % 10), digitChar (n / 10 % 10), digitChar (n % 10)]

def pad6 (n : Nat) : List Char :=
  [digitChar (n / 100000), digitChar (n / 10000 % 10), digitChar (n / 1000 % 10),
   digitChar (n / 100 % 10), digitChar (n / 10 % 10), digitChar (n % 10)]

/-- `datetime.isoformat()` of an aware datetime: microseconds printed iff
non-zero, offset printed as `+HH:MM` / `-HH:MM` (UTC is `+00:00`, never `Z`). -/
def isoChars (dt : PyDateTime) : List Char :=
  pad4 dt.year ++ '-' :: (pad2 dt.month ++ '-' :: (pad2 dt.day ++ 'T' ::
    (pad2 dt.hour ++ ':' :: (pad2 dt.minute ++ ':' :: (pad2 dt.second ++
      ((if dt.microsecond ≠ 0 then '.' :: pad6 dt.microsecond else []) ++
        (if 0 ≤ dt.offMinutes then '+' else '-') ::
          (pad2 (dt.offMinutes.natAbs / 60) ++ ':' :: pad2 (dt.offMinutes.natAbs % 60))))))))

def isoformat (dt : PyDateTime) : String := ⟨isoChars dt⟩

def isDig (c : Char) : Bool := 48 ≤ c.toNat && c.toNat ≤ 57

def digitVal (c : Char) : Nat := c.toNat - 48

def parseDigit (c : Char) : Option Nat := if isDig c then some (digitVal c) else none

def parse2 : List Char → Option (Nat × List Char)
  | a :: b :: rest =>
    match parseDigit a, parseDigit b with
    | some x, some y => some (x * 10 + y, rest)
    | _, _ => none
  | _ => none

def parse4 : List Char → Option (Nat × List Char)
  | a :: b :: c :: d :: rest =>
    match parseDigit a, parseDigit b, parseDigit c, parseDigit d with
    | some x, some y, some z, some w => some (x * 1000 + y * 100 + z * 10 + w, rest)
    | _, _, _, _ => none
  | _ => none

def parse6 : List Char → Option (Nat × List Char)
  | a :: b :: c :: d :: e :: f :: rest =>
    match parseDigit a, parseDigit b, parseDigit c, parseDigit d, parseDigit e, parseDigit f with
    | some x, some y, some z, some w, some v, some u =>
      some (x * 100000 + y * 10000 + z * 1000 + w * 100 + v * 10 + u, rest)
    | _, _, _, _, _, _ => none
  | _ => none

def expectChar (c : Char) : List Char → Option (List Char)
  | a :: rest => if a = c then some rest else none
  | _ => none

/-- The trailing `±HH:MM` UTC offset. -/
def parseOffPart (y mo d h mi s micro : Nat) : List Char → Option PyDateTime
  | sgn :: rest =>
    if sgn = '+' ∨ sgn = '-' then
      match parse2 rest with
      | none => none
      | some (oh, r1) =>
        match expectChar ':' r1 with
        | none => none
        | some r2 =>
          match parse2 r2 with
          | none => none
          | some (om, r3) =>
            if r3 = [] ∧ oh < 24 ∧ om < 60 then
              some ⟨y, mo, d, h, mi, s, micro,
                if sgn = '+' then (oh * 60 + om : Int) else -(oh * 60 + om : Int)⟩
            else none
    else none
  | [] => none

/-- The date-string grammar `YYYY-MM-DDTHH:MM:SS[.ffffff]±HH:MM` with field
range checks. -/
def parseChars (l : List Char) : Option PyDateTime :=
  match parse4 l with
  | none => none
  | some (y, l1) =>
  match expectChar '-' l1 with
  | none => none
  | some l2 =>
  match parse2 l2 with
  | none => none
  | some (mo, l3) =>
  match expectChar '-' l3 with
  | none => none
  | some l4 =>
  match parse2 l4 with
  | none => none
  | some (d, l5) =>
  match expectChar 'T' l5 with
  | none => none
  | some l6 =>
  match parse2 l6 with
  | none => none
  | some (h, l7) =>
  match expectChar ':' l7 with
  | none => none
  | some l8 =>
  match parse2 l8 with
  | none => none
  | some (mi, l9) =>
  match expectChar ':' l9 with
  | none => none
  | some l10 =>
  match parse2 l10 with
  | none => none
  | some (s, l11) =>
    if 1 ≤ mo ∧ mo ≤ 12 ∧ 1 ≤ d ∧ d ≤ 31 ∧ h < 24 ∧ mi < 60 ∧ s < 60 then
      match l11 with
      | [] => parseOffPart y mo d h mi s 0 []
      | c :: rest =>
        if c = '.' then
          match parse6 rest with
          | none => none
          | some (micro, l12) => parseOffPart y mo d h mi s micro l12
        else parseOffPart y mo d h mi s 0 (c :: rest)
    else none

/-- The warning of `_parse_date_string` (which interpolates the raw value). -/
def parseWarnMsg (date_str : String) : String :=
  "Failed to parse date string '" ++ date_str ++ "'"

/-- `_parse_date_string`: parse and re-emit `isoformat`; on failure log a
warning and return `None`.  The warnings channel is made explicit. -/
def parseDateString (date_str : String) : Option String × List String :=
  match parseChars date_str.data with
  | some dt => (some (isoformat dt), [])
  | none => (none, [parseWarnMsg date_str])

inductive DateKind where
  | created
  | updated
deriving DecidableEq, Repr

/-- The front-matter key `document_dates_<kind>` looked up by `_get_date`. -/
def metaDateValue (m : PageMeta) : DateKind → Option String
  | .created => m.document_dates_created
  | .updated => m.document_dates_updated

/-- `_get_date`: look up `document_dates_<kind>`; when truthy (present and
non-empty) normalize it, else return `None`. -/
def getDate (page : Page) (_config : SiteConfig) (kind : DateKind) :
    Option String × List String :=
  match metaDateValue page.meta kind with
  | some s => if s ≠ "" then parseDateString s else (none, [])
  | none => (none, [])

/-! ### The Injector: head tags, JSON-LD schema, breadcrumbs, `on_post_page` -/

/-- A JSON value as built for the JSON-LD script (`json.dumps` input).  Python
dicts preserve insertion order, modelled as association lists. -/
inductive JVal where
  | str (s : String)
  | num (n : Nat)
  | obj (fields : List (String × JVal))
  | arr (elems : List JVal)

/-- An element appended to `soup.head`. -/
inductive Tag where
  | metaName (name content : String)
  | metaProp (property content : String)
  | link (rel href : String)
  | script (typ : String) (content : JVal)

/-- `_add_meta`: append a `<meta name=… content=…>` unless the content is empty. -/
def addMeta (head : List Tag) (name content : String) : List Tag :=
  if content = "" then head else head ++ [Tag.metaName name content]

/-- `_add_og`: append a `<meta property=… content=…>` unless the content is empty. -/
def addOg (head : List Tag) (property content : String) : List Tag :=
  if content = "" then head else head ++ [Tag.metaProp property content]

/-- `_inject_basic_meta`: description, keywords, author metas (each when
non-empty), then the canonical link when that feature is on and the URL resolves. -/
def injectBasicMeta (opts : PluginOptions) (page : Page) (config : SiteConfig)
    (head : List Tag) : List Tag :=
  let desc := getPageDescription page config
  let head := if desc ≠ "" then addMeta head "description" desc else head
  let keywords := pyKeywords page.meta.keywords config.tags
  let head := if keywords ≠ "" then addMeta head "keywords" keywords else head
  let author := page.meta.author.getD config.site_author
  let head := if author ≠ "" then addMeta head "author" author else head
  if opts.use_canonical_url then
    let canonical := getCanonicalUrl opts page config
    if canonical ≠ "" then head ++ [Tag.link "canonical" canonical] else head
  else head

/-- `_inject_open_graph`. -/
def injectOpenGraph (opts : PluginOptions) (page : Page) (config : SiteConfig)
    (head : List Tag) : List Tag :=
  let title := getPageTitle page config
  let desc := getPageDescription page config
  let url := getCanonicalUrl opts page config
  let head := addOg head "og:type" opts.og_type
  let head := if title ≠ "" then addOg head "og:title" title else head
  let head := if desc ≠ "" then addOg head "og:description" desc else head
  let head := if url ≠ "" then addOg head "og:url" url else head
  let head :=
    match config.site_name with
    | some sn => if sn ≠ "" then addOg head "og:site_name" sn else head
    | none => head
  let head := addOg head "og:locale" opts.og_locale
  match getSocialImage opts page config with
  | some img => if img ≠ "" then addOg head "og:image" img else head
  | none => head

/-- `_inject_twitter_cards`. -/
def injectTwitterCards (opts : PluginOptions) (page : Page) (config : SiteConfig)
    (head : List Tag) : List Tag :=
  let head := addMeta head "twitter:card" opts.twitter_card_type
  let head := if opts.twitter_site ≠ "" then addMeta head "twitter:site" opts.twitter_site else head
  let head :=
    if opts.twitter_creator ≠ "" then addMeta head "twitter:creator" opts.twitter_creator else head
  let title := getPageTitle page config
  let head := if title ≠ "" then addMeta head "twitter:title" title else head
  let desc := getPageDescription page config
  let head := if desc ≠ "" then addMeta head "twitter:description" desc else head
  match getSocialImage opts page config with
  | some img => if img ≠ "" then addMeta head "twitter:image" img else head
  | none => head

/-- One `ListItem` of the `BreadcrumbList`. -/
structure BItem where
  position : Nat
  name : String
  item : String
deriving DecidableEq, Repr

def bItemJVal (b : BItem) : JVal :=
  .obj [("@type", .str "ListItem"), ("position", .num b.position),
        ("name", .str b.name), ("item", .str b.item)]

/-- The ancestor loop of `_inject_json_ld`: one item per ancestor having both a
`url` and a `title`, threading the `position` counter; returns the items and the
final counter value. -/
def ancestorItems (opts : PluginOptions) (config : SiteConfig) :
    List Ancestor → Nat → List BItem × Nat
  | [], pos => ([], pos)
  | a :: rest, pos =>
    match a.url, a.title with
    | some u, some t =>
      let r := ancestorItems opts config rest (pos + 1)
      (⟨pos, t, resolveUrl opts config u⟩ :: r.1, r.2)
    | _, _ => ancestorItems opts config rest pos

/-- The breadcrumb list of `_inject_json_ld`, built only when the page has
ancestors: root (position 1), the attribute-carrying ancestors, then the page. -/
def breadcrumbItems (opts : PluginOptions) (page : Page) (config : SiteConfig) :
    Option (List BItem) :=
  if page.ancestors = [] then none
  else
    let rootItem : BItem := ⟨1, config.site_name.getD "Home", baseUrl opts config⟩
    let r := ancestorItems opts config page.ancestors 2
    let pageItem : BItem := ⟨r.2, getPageTitle page config, getCanonicalUrl opts page config⟩
    some (rootItem :: r.1 ++ [pageItem])

/-- The `schema` dict of `_inject_json_ld`, in insertion order. -/
def jsonLdSchema (opts : PluginOptions) (page : Page) (config : SiteConfig) :
    List (String × JVal) :=
  let url := getCanonicalUrl opts page config
  let title := getPageTitle page config
  let desc := getPageDescription page config
  let date_published := (getDate page config .created).1
  let date_modified := (getDate page config .updated).1
  let author_name := page.meta.author.getD config.site_author
  [("@context", .str "https://schema.org"), ("@type", .str "WebPage"),
   ("name", .str title), ("url", .str url)]
  ++ (if desc ≠ "" then [("description", JVal.str desc)] else [])
  ++ (match date_published with
      | some dp => if dp ≠ "" then [("datePublished", JVal.str dp)] else []
      | none => [])
  ++ (match date_modified with
      | some dm => if dm ≠ "" then [("dateModified", JVal.str dm)] else []
      | none => [])
  ++ (if author_name ≠ "" then
        [("author", JVal.obj [("@type", .str "Person"), ("name", .str author_name)])]
      else [])
  ++ (match breadcrumbItems opts page config with
      | some items =>
        [("breadcrumb", JVal.obj [("@type", .str "BreadcrumbList"),
                                  ("itemListElement", .arr (items.map bItemJVal))])]
      | none => [])

/-- `_inject_json_ld`: the script element is always appended. -/
def injectJsonLd (opts : PluginOptions) (page : Page) (config : SiteConfig)
    (head : List Tag) : List Tag :=
  head ++ [Tag.script "application/ld+json" (.obj (jsonLdSchema opts page config))]

/-- The body of `on_post_page` once a `<head>` was found: basic meta, then the
three feature-gated blocks, in order. -/
def injectHead (opts : PluginOptions) (page : Page) (config : SiteConfig)
    (head : List Tag) : List Tag :=
  let head := injectBasicMeta opts page config head
  let head := if opts.use_open_graph then injectOpenGraph opts page config head else head
  let head := if opts.use_twitter_cards then injectTwitterCards opts page config head else head
  if opts.add_schema_org_json_ld then injectJsonLd opts page config head else head

/-! ### The per-page hook `on_post_page`

BeautifulSoup parsing and serialization are external collaborators (spec §1):
the parsed document is a `Soup` given alongside the raw page text it was parsed
from, and `str(soup)` is modelled by a canonical renderer. -/

/-- The parsed document: the text around the head and the head's element list
(`none` when the document has no `<head>`). -/
structure Soup where
  preHead : String
  head : Option (List Tag)
  postHead : String

mutual

/-- A canonical `json.dumps` rendering (model of the external serializer). -/
def dumpsJVal : JVal → String
  | .str s => "\x22" ++ s ++ "\x22"
  | .num n => toString n
  | .obj fields => "\x7b" ++ dumpsFields fields ++ "\x7d"
  | .arr elems => "[" ++ dumpsElems elems ++ "]"

def dumpsFields : List (String × JVal) → String
  | [] => ""
  | [(k, v)] => "\x22" ++ k ++ "\x22: " ++ dumpsJVal v
  | (k, v) :: rest => "\x22" ++ k ++ "\x22: " ++ dumpsJVal v ++ ", " ++ dumpsFields rest

def dumpsElems : List JVal → String
  | [] => ""
  | [v] => dumpsJVal v
  | v :: rest => dumpsJVal v ++ ", " ++ dumpsElems rest

end

/-- A canonical rendering of one appended head element. -/
def renderTag : Tag → String
  | .metaName n c => "<meta name=\x22" ++ n ++ "\x22 content=\x22" ++ c ++ "\x22/>"
  | .metaProp p c => "<meta property=\x22" ++ p ++ "\x22 content=\x22" ++ c ++ "\x22/>"
  | .link r h => "<link rel=\x22" ++ r ++ "\x22 href=\x22" ++ h ++ "\x22/>"
  | .script t c => "<script type=\x22" ++ t ++ "\x22>" ++ dumpsJVal c ++ "</script>"

/-- A canonical `str(soup)` (model of the external serializer). -/
def serializeSoup (soup : Soup) : String :=
  soup.preHead ++
    (match soup.head with
     | some tags => "<head>" ++ String.join (tags.map renderTag) ++ "</head>"
     | none => "") ++
  soup.postHead

/-- The warning of `on_post_page` when the page has no `<head>`. -/
def noHeadWarning (src_path : String) : String :=
  "Could not find <head> in " ++ src_path ++ ". SEO tags not added."

/-- `on_post_page`: `output` is the rendered page text and `soup` its parse.
Without a `<head>` the hook warns and returns `output` itself; otherwise it
injects every enabled block and returns the re-serialized document.  The
warnings channel is made explicit. -/
def on_post_page (opts : PluginOptions) (output : String) (soup : Soup)
    (page : Page) (config : SiteConfig) : String × List String :=
  match soup.head with
  | none => (output, [noHeadWarning page.src_path])
  | some h =>
    (serializeSoup { soup with head := some (injectHead opts page config h) }, [])

/-- Whether an appended head holds a `<meta property=p …>` tag. -/
def hasOgProp (head : List Tag) (p : String) : Bool :=
  head.any fun t =>
    match t with
    | .metaProp q _ => decide (q = p)
    | _ => false

/-- Whether an appended head holds a `<meta name=n …>` tag. -/
def hasMetaName (head : List Tag) (n : String) : Bool :=
  head.any fun t =>
    match t with
    | .metaName q _ => decide (q = n)
    | _ => false

/-- Field ranges of an aware datetime as `dateutil` yields for the accepted
grammar: calendar fields in range, offsets below 24 hours. -/
def validDT (dt : PyDateTime) : Prop :=
  1 ≤ dt.year ∧ dt.year ≤ 9999 ∧ 1 ≤ dt.month ∧ dt.month ≤ 12 ∧ 1 ≤ dt.day ∧ dt.day ≤ 31 ∧
  dt.hour < 24 ∧ dt.minute < 60 ∧ dt.second < 60 ∧ dt.microsecond < 1000000 ∧
  dt.offMinutes.natAbs < 1440

instance (dt : PyDateTime) : Decidable (validDT dt) := by
  unfold validDT; infer_instance

/-- Python truthiness of an optional string (`None` and `""` are falsy). -/
def pyTruthyOpt : Option String → Prop
  | some s => s ≠ ""
  | none => False

/-- The `config_scheme` defaults of the plugin options. -/
def defaultOpts : PluginOptions :=
  ⟨"", true, true, true, "website", "", "en_US", true, "summary_large_image", "", "", "", true⟩

/-- The number of ancestors that carry both a `url` and a `title`. -/
def validAncestorCount (l : List Ancestor) : Nat :=
  (l.filter fun a => a.url.isSome && a.title.isSome).length

/-! ### Theorems -/

theorem head?_dropWhile_slash (l : List Char) :
    (l.dropWhile (· == '/')).head? ≠ some '/' := by
  induction l with
  | nil => simp
  | cons a l ih =>
    rw [List.dropWhile_cons]
    by_cases h : a = '/'
    · simpa [h] using ih
    · simp [h]

theorem lstripSlash_no_leading (s : String) : (lstripSlash s).data.head? ≠ some '/' :=
  head?_dropWhile_slash s.data

theorem rstripSlash_no_trailing (s : String) : (rstripSlash s).data.getLast? ≠ some '/' := by
  unfold rstripSlash
  rw [show (String.mk ((s.data.reverse.dropWhile (· == '/')).reverse)).data
        = (s.data.reverse.dropWhile (· == '/')).reverse from rfl,
      List.getLast?_reverse]
  exact head?_dropWhile_slash s.data.reverse

theorem baseUrl_ne_empty {opts : PluginOptions} {config : SiteConfig}
    (h : ¬(opts.url_base = "" ∧ config.site_url = "")) : baseUrl opts config ≠ "" := by
  unfold baseUrl
  by_cases hu : opts.url_base = ""
  · simp only [hu, ne_eq, not_true_eq_false, if_neg, ite_false]
    tauto
  · simp [hu]

/-- C1: `resolveCanonicalUrl` is empty when both `url_base` and `site_url` are
empty; otherwise it is `rstrip(base, "/") + "/" + lstrip(page.url, "/")` with
`base = url_base` if non-empty else `site_url`, the left part never ends in `/`
and the right part never starts with `/`, so the join point carries exactly the
one separating slash. -/
theorem canonical_url_join (opts : PluginOptions) (page : Page) (config : SiteConfig) :
    (opts.url_base = "" ∧ config.site_url = "" → getCanonicalUrl opts page config = "") ∧
    (¬(opts.url_base = "" ∧ config.site_url = "") →
      getCanonicalUrl opts page config
        = rstripSlash (baseUrl opts config) ++ "/" ++ lstripSlash page.url ∧
      (rstripSlash (baseUrl opts config)).data.getLast? ≠ some '/' ∧
      (lstripSlash page.url).data.head? ≠ some '/') := by
  constructor
  · rintro ⟨hu, hs⟩
    simp [getCanonicalUrl, baseUrl, hu, hs]
  · intro h
    refine ⟨?_, rstripSlash_no_trailing _, lstripSlash_no_leading _⟩
    simp [getCanonicalUrl, baseUrl_ne_empty h]

/-- C1 witness: a concrete page and configuration, with a trailing slash on the
base and a leading slash on the page URL, join with exactly one slash. -/
theorem canonical_url_join_witness :
    getCanonicalUrl ⟨"https://x.io/d/", true, true, true, "website", "", "en_US", true,
        "summary_large_image", "", "", "", true⟩
      ⟨"/p/", "P", false, ⟨none, none, none, none, none, none⟩, [], "p.md"⟩
      ⟨some "S", "", none, "", [], []⟩
      = rstripSlash "https://x.io/d/" ++ "/" ++ lstripSlash "/p/" ∧
    (rstripSlash "https://x.io/d/").data.getLast? ≠ some '/' ∧
    (lstripSlash "/p/").data.head? ≠ some '/' :=
  (canonical_url_join _ _ _).2 (by decide)

/-- C2 counterexample: with front-matter `description: ""` and a non-empty
`site_description` on the homepage, the result is `""`, so a non-empty later
source does not win and `""` is returned although `site_description` supplied a
value. -/
theorem description_counterexample :
    getPageDescription ⟨"p/", "P", true, ⟨some "", none, none, none, none, none⟩, [], "p.md"⟩
        ⟨some "S", "", some "Desc", "", [], []⟩ = "" ∧
    (⟨some "S", "", some "Desc", "", [], []⟩ : SiteConfig).site_description = some "Desc" ∧
    ("Desc" : String) ≠ "" := by
  refine ⟨rfl, rfl, by decide⟩

/-- C2 amended: the front-matter `description` wins whenever the key is present,
even when its value is empty; otherwise the result is the site description (or
`""` when that is unset) — on the homepage via the non-empty check, on any other
page via the unconditional fallback, which coincide.  The operation is a total
function, so it never throws. -/
theorem description_resolution (page : Page) (config : SiteConfig) (d : String) :
    getPageDescription { page with meta := { page.meta with description := some d } } config
      = d ∧
    getPageDescription { page with meta := { page.meta with description := none } } config
      = config.site_description.getD "" := by
  refine ⟨rfl, ?_⟩
  simp [getPageDescription]

/-- C3: when the parsed document has no `<head>`, `on_post_page` emits exactly
one warning, whose text contains the page's source path, and returns the
original HTML string unchanged; in every other case it performs the injection
and returns the serialized document with no warning. -/
theorem no_head_policy (opts : PluginOptions) (output : String) (soup : Soup)
    (page : Page) (config : SiteConfig) :
    (soup.head = none →
      on_post_page opts output soup page config = (output, [noHeadWarning page.src_path]) ∧
      ∃ pre post, noHeadWarning page.src_path = pre ++ page.src_path ++ post) ∧
    (∀ h, soup.head = some h →
      on_post_page opts output soup page config
        = (serializeSoup { soup with head := some (injectHead opts page config h) }, [])) := by
  constructor
  · intro hn
    refine ⟨?_, "Could not find <head> in ", ". SEO tags not added.", rfl⟩
    unfold on_post_page
    rw [hn]
  · intro h hh
    unfold on_post_page
    rw [hh]

/-- C3 witness: a concrete head-less document is returned verbatim with the
warning naming `p.md`. -/
theorem no_head_policy_witness :
    on_post_page defaultOpts "<html><body/></html>" ⟨"<html><body/></html>", none, ""⟩
        ⟨"p/", "P", false, ⟨none, none, none, none, none, none⟩, [], "p.md"⟩
        ⟨some "S", "", none, "", [], []⟩
      = ("<html><body/></html>", [noHeadWarning "p.md"]) ∧
    ∃ pre post, noHeadWarning "p.md" = pre ++ "p.md" ++ post :=
  (no_head_policy _ _ _ _ _).1 rfl

theorem ancestorItems_spec (opts : PluginOptions) (config : SiteConfig)
    (l : List Ancestor) (pos : Nat) :
    (ancestorItems opts config l pos).1.map BItem.position
        = List.range' pos (validAncestorCount l) ∧
    (ancestorItems opts config l pos).2 = pos + validAncestorCount l := by
  induction l generalizing pos with
  | nil => simp [ancestorItems, validAncestorCount]
  | cons a rest ih =>
    rcases hu : a.url with _ | u <;> rcases ht : a.title with _ | t <;>
      simp_all [ancestorItems, validAncestorCount, List.filter_cons, List.range'_succ]
    all_goals omega

/-- C4: whenever the JSON-LD injector builds a breadcrumb list (the page has
ancestors), the positions of root, the attribute-carrying ancestors in order,
and the current page form exactly the sequence `1, 2, …, N + 2` where `N` is the
number of ancestors carrying both a `url` and a `title` — ancestors lacking
either are skipped without occupying a position. -/
theorem breadcrumb_positions (opts : PluginOptions) (page : Page) (config : SiteConfig)
    (items : List BItem) (h : breadcrumbItems opts page config = some items) :
    items.map BItem.position = List.range' 1 (validAncestorCount page.ancestors + 2) := by
  unfold breadcrumbItems at h
  by_cases ha : page.ancestors = []
  · simp [ha] at h
  · rw [if_neg ha, Option.some.injEq] at h
    obtain ⟨h1, h2⟩ := ancestorItems_spec opts config page.ancestors 2
    subst h
    simp only [List.map_cons, List.map_append, List.map_nil, List.cons_append, h1, h2]
    have happ := List.range'_append_1 2 (validAncestorCount page.ancestors) 1
    have hone : List.range' (2 + validAncestorCount page.ancestors) 1
        = [2 + validAncestorCount page.ancestors] := by simp [List.range']
    rw [hone] at happ
    rw [happ, show validAncestorCount page.ancestors + 2
          = (1 + validAncestorCount page.ancestors) + 1 from by omega,
        List.range'_succ]

/-- C4 witness: three ancestors of which the middle one lacks a `url`; the
positions are exactly `1, 2, 3, 4`. -/
theorem breadcrumb_positions_witness :
    ([⟨1, "S", "https://x.io"⟩, ⟨2, "A", "https://x.io/a/"⟩, ⟨3, "C", "https://x.io/c/"⟩,
      ⟨4, "P", "https://x.io/p/"⟩] : List BItem).map BItem.position = List.range' 1 4 :=
  breadcrumb_positions
    ⟨"https://x.io", true, true, true, "website", "", "en_US", true,
      "summary_large_image", "", "", "", true⟩
    ⟨"p/", "P", false, ⟨none, none, none, none, none, none⟩,
      [⟨some "a/", some "A"⟩, ⟨none, some "B"⟩, ⟨some "c/", some "C"⟩], "p.md"⟩
    ⟨some "S", "", none, "", [], []⟩ _ (by decide)

/-- C6 counterexample: the empty string is a present, unparsable front-matter
date value, yet `_get_date` returns `None` with no warning — Python truthiness
discards it before it ever reaches the parser. -/
theorem date_warning_counterexample :
    getDate ⟨"p/", "P", false, ⟨none, none, none, none, some "", none⟩, [], "p.md"⟩
        ⟨some "S", "", none, "", [], []⟩ .created = (none, []) ∧
    parseChars ("" : String).data = none ∧
    (⟨none, none, none, none, some "", none⟩ : PageMeta).document_dates_created = some "" :=
  ⟨rfl, rfl, rfl⟩

/-- C6 amended: an absent or empty date value yields `None` with no warning; a
non-empty value that fails to parse yields `None` together with a warning whose
text contains the raw value; the resolver is a total function, so the failure
never propagates as an exception. -/
theorem date_failure_handling (page : Page) (config : SiteConfig) (kind : DateKind) :
    (metaDateValue page.meta kind = none → getDate page config kind = (none, [])) ∧
    (metaDateValue page.meta kind = some "" → getDate page config kind = (none, [])) ∧
    (∀ s, metaDateValue page.meta kind = some s → s ≠ "" → parseChars s.data = none →
      getDate page config kind = (none, [parseWarnMsg s]) ∧
      ∃ pre post, parseWarnMsg s = pre ++ s ++ post) := by
  refine ⟨?_, ?_, ?_⟩
  · intro h
    unfold getDate
    rw [h]
  · intro h
    unfold getDate
    rw [h]
    simp
  · intro s hs hne hp
    constructor
    · simp [getDate, hs, hne, parseDateString, hp]
    · exact ⟨"Failed to parse date string '", "'", rfl⟩

/-- C6 witness: `not-a-date` is reported as a warning containing the raw value
and resolves to `None`. -/
theorem date_failure_handling_witness :
    getDate ⟨"p/", "P", false, ⟨none, none, none, none, some "not-a-date", none⟩, [], "p.md"⟩
        ⟨some "S", "", none, "", [], []⟩ .created = (none, [parseWarnMsg "not-a-date"]) ∧
    ∃ pre post, parseWarnMsg "not-a-date" = pre ++ "not-a-date" ++ post :=
  (date_failure_handling _ _ _).2.2 "not-a-date" rfl (by decide) (by decide)

/-- C7: `_get_social_image` candidate order — a front-matter `image` (resolved
to absolute) always wins and is never displaced by the synthesized social-card
path; otherwise an active `social` / `material/social` plugin yields
`assets/images/social/<slug>.png` resolved to absolute; otherwise a non-empty
configured `og_image` resolves; otherwise the image is absent.  Each later
candidate is reached only when every earlier one yielded nothing. -/
theorem social_image_priority (opts : PluginOptions) (page : Page) (config : SiteConfig) :
    (∀ img, page.meta.image = some img →
      getSocialImage opts page config = some (resolveUrl opts config img)) ∧
    (page.meta.image = none → socialPluginActive config →
      getSocialImage opts page config
        = some (resolveUrl opts config
            ("assets/images/social/" ++ socialSlug page.url ++ ".png"))) ∧
    (page.meta.image = none → ¬socialPluginActive config → opts.og_image ≠ "" →
      getSocialImage opts page config = some (resolveUrl opts config opts.og_image)) ∧
    (page.meta.image = none → ¬socialPluginActive config → opts.og_image = "" →
      getSocialImage opts page config = none) := by
  refine ⟨?_, ?_, ?_, ?_⟩
  · intro img h
    unfold getSocialImage
    rw [h]
  · intro h hs
    unfold getSocialImage
    rw [h, if_pos hs]
  · intro h hs hog
    unfold getSocialImage
    rw [h, if_neg hs, if_pos hog]
  · intro h hs hog
    unfold getSocialImage
    rw [h, if_neg hs, if_neg (by simp [hog])]

/-- C7 witness: with front-matter `image: "custom.jpg"` and the `social` plugin
active, the resolved image is the resolved front-matter image, not the
synthesized social-card path. -/
theorem social_image_priority_witness :
    getSocialImage ⟨"https://x.io", true, true, true, "website", "", "en_US", true,
        "summary_large_image", "", "", "", true⟩
      ⟨"p/", "P", false, ⟨none, none, none, some "custom.jpg", none, none⟩, [], "p.md"⟩
      ⟨some "S", "", none, "", [], ["social"]⟩
      = some (resolveUrl ⟨"https://x.io", true, true, true, "website", "", "en_US", true,
          "summary_large_image", "", "", "", true⟩
          ⟨some "S", "", none, "", [], ["social"]⟩ "custom.jpg") :=
  (social_image_priority _ _ _).1 "custom.jpg" rfl

theorem addOg_of_ne (h : List Tag) (p c : String) :
    (if c ≠ "" then addOg h p c else h) = addOg h p c := by
  by_cases hc : c = "" <;> simp [addOg, hc]

theorem addMeta_of_ne (h : List Tag) (n c : String) :
    (if c ≠ "" then addMeta h n c else h) = addMeta h n c := by
  by_cases hc : c = "" <;> simp [addMeta, hc]

theorem hasOgProp_addOg (h : List Tag) (p c q : String) :
    hasOgProp (addOg h p c) q = (hasOgProp h q || (decide (c ≠ "") && decide (p = q))) := by
  unfold addOg hasOgProp
  by_cases hc : c = "" <;> simp [hc]

theorem hasOgProp_addMeta (h : List Tag) (n c q : String) :
    hasOgProp (addMeta h n c) q = hasOgProp h q := by
  unfold addMeta hasOgProp
  by_cases hc : c = "" <;> simp [hc]

theorem hasMetaName_addMeta (h : List Tag) (n c q : String) :
    hasMetaName (addMeta h n c) q = (hasMetaName h q || (decide (c ≠ "") && decide (n = q))) := by
  unfold addMeta hasMetaName
  by_cases hc : c = "" <;> simp [hc]

theorem hasMetaName_addOg (h : List Tag) (p c q : String) :
    hasMetaName (addOg h p c) q = hasMetaName h q := by
  unfold addOg hasMetaName
  by_cases hc : c = "" <;> simp [hc]

theorem hasOgProp_nil (q : String) : hasOgProp [] q = false := rfl

theorem hasMetaName_nil (q : String) : hasMetaName [] q = false := rfl

/-- C8 counterexample: with `og_type` configured as the empty string the Open
Graph injector emits no `og:type` tag at all — `_add_og` silently drops empty
content — so `og:type` is not emitted regardless of emptiness. -/
theorem unconditional_tags_counterexample :
    hasOgProp
        (injectOpenGraph ⟨"https://x.io", true, true, true, "", "", "en_US", true,
            "summary_large_image", "", "", "", true⟩
          ⟨"p/", "P", false, ⟨none, none, none, none, none, none⟩, [], "p.md"⟩
          ⟨some "S", "", none, "", [], []⟩ []) "og:type" = false ∧
    (⟨"https://x.io", true, true, true, "", "", "en_US", true, "summary_large_image",
        "", "", "", true⟩ : PluginOptions).use_open_graph = true := by
  constructor
  · decide
  · rfl

/-- C8 amended: the calls for `og:type`, `og:locale` and `twitter:card` are
unconditional, but the tag-append helpers drop empty content, so each of those
tags is emitted iff its configured value is non-empty; `og:title`,
`og:description`, `og:url`, `twitter:title` and `twitter:description` are each
emitted iff the resolved value is non-empty. -/
theorem unconditional_tags_emission (opts : PluginOptions) (page : Page)
    (config : SiteConfig) :
    (hasOgProp (injectOpenGraph opts page config []) "og:type" = true ↔
      opts.og_type ≠ "") ∧
    (hasOgProp (injectOpenGraph opts page config []) "og:locale" = true ↔
      opts.og_locale ≠ "") ∧
    (hasMetaName (injectTwitterCards opts page config []) "twitter:card" = true ↔
      opts.twitter_card_type ≠ "") ∧
    (hasOgProp (injectOpenGraph opts page config []) "og:title" = true ↔
      getPageTitle page config ≠ "") ∧
    (hasOgProp (injectOpenGraph opts page config []) "og:description" = true ↔
      getPageDescription page config ≠ "") ∧
    (hasOgProp (injectOpenGraph opts page config []) "og:url" = true ↔
      getCanonicalUrl opts page config ≠ "") ∧
    (hasMetaName (injectTwitterCards opts page config []) "twitter:title" = true ↔
      getPageTitle page config ≠ "") ∧
    (hasMetaName (injectTwitterCards opts page config []) "twitter:description" = true ↔
      getPageDescription page config ≠ "") := by
  rcases hsn : config.site_name with _ | sn <;>
    rcases himg : getSocialImage opts page config with _ | img <;>
      refine ⟨?_, ?_, ?_, ?_, ?_, ?_, ?_, ?_⟩ <;>
        (simp only [injectOpenGraph, injectTwitterCards, hsn, himg]
         simp only [addOg_of_ne, addMeta_of_ne]
         simp [hasOgProp_addOg, hasOgProp_addMeta, hasMetaName_addMeta, hasMetaName_addOg,
               hasOgProp_nil, hasMetaName_nil])

theorem addMeta_append (a b : List Tag) (n c : String) :
    addMeta (a ++ b) n c = a ++ addMeta b n c := by
  unfold addMeta
  by_cases hc : c = "" <;> simp [hc]

theorem addOg_append (a b : List Tag) (p c : String) :
    addOg (a ++ b) p c = a ++ addOg b p c := by
  unfold addOg
  by_cases hc : c = "" <;> simp [hc]

theorem injectBasicMeta_append (opts : PluginOptions) (page : Page) (config : SiteConfig)
    (a b : List Tag) :
    injectBasicMeta opts page config (a ++ b) = a ++ injectBasicMeta opts page config b := by
  simp only [injectBasicMeta]
  split_ifs <;> simp [addMeta_append, List.append_assoc]

theorem injectOpenGraph_append (opts : PluginOptions) (page : Page) (config : SiteConfig)
    (a b : List Tag) :
    injectOpenGraph opts page config (a ++ b) = a ++ injectOpenGraph opts page config b := by
  rcases hsn : config.site_name with _ | sn <;>
    rcases himg : getSocialImage opts page config with _ | img <;>
      (simp only [injectOpenGraph, hsn, himg]
       split_ifs <;> simp [addOg_append, List.append_assoc])

theorem injectTwitterCards_append (opts : PluginOptions) (page : Page) (config : SiteConfig)
    (a b : List Tag) :
    injectTwitterCards opts page config (a ++ b) = a ++ injectTwitterCards opts page config b := by
  rcases himg : getSocialImage opts page config with _ | img <;>
    (simp only [injectTwitterCards, himg]
     split_ifs <;> simp [addMeta_append, List.append_assoc])

theorem injectJsonLd_append (opts : PluginOptions) (page : Page) (config : SiteConfig)
    (a b : List Tag) :
    injectJsonLd opts page config (a ++ b) = a ++ injectJsonLd opts page config b := by
  simp [injectJsonLd]

theorem injectHead_append (opts : PluginOptions) (page : Page) (config : SiteConfig)
    (a b : List Tag) :
    injectHead opts page config (a ++ b) = a ++ injectHead opts page config b := by
  simp only [injectHead]
  split_ifs <;>
    simp [injectBasicMeta_append, injectOpenGraph_append, injectTwitterCards_append,
          injectJsonLd_append]

/-- C9: the Injector is additive-only — for a fixed page and configuration it
always appends the same tag list after the existing head, so a second run
appends that list again (every tag emitted by the first run occurs a second
time after the second run); on the default configuration a second run changes
the document, so injection is not idempotent. -/
theorem inject_twice_duplicates (opts : PluginOptions) (page : Page) (config : SiteConfig) :
    (∀ head : List Tag,
      injectHead opts page config head = head ++ injectHead opts page config [] ∧
      injectHead opts page config (injectHead opts page config head)
        = head ++ injectHead opts page config [] ++ injectHead opts page config []) ∧
    injectHead defaultOpts
        ⟨"p/", "P", false, ⟨none, none, none, none, none, none⟩, [], "p.md"⟩
        ⟨some "S", "https://x.io", none, "", [], []⟩
        (injectHead defaultOpts
          ⟨"p/", "P", false, ⟨none, none, none, none, none, none⟩, [], "p.md"⟩
          ⟨some "S", "https://x.io", none, "", [], []⟩ [])
      ≠ injectHead defaultOpts
          ⟨"p/", "P", false, ⟨none, none, none, none, none, none⟩, [], "p.md"⟩
          ⟨some "S", "https://x.io", none, "", [], []⟩ [] := by
  constructor
  · intro head
    have h1 : injectHead opts page config head = head ++ injectHead opts page config [] := by
      simpa using injectHead_append opts page config head []
    refine ⟨h1, ?_⟩
    have h2 := injectHead_append opts page config (injectHead opts page config []) []
    simp only [List.append_nil] at h2
    rw [h1, injectHead_append, h2, List.append_assoc]
  · intro h
    exact absurd (congrArg List.length h) (by decide)

theorem jsonLdSchema_keys (opts : PluginOptions) (page : Page) (config : SiteConfig) :
    (jsonLdSchema opts page config).map Prod.fst
      = ["@context", "@type", "name", "url"]
        ++ (if getPageDescription page config ≠ "" then ["description"] else [])
        ++ (match (getDate page config .created).1 with
            | some dp => if dp ≠ "" then ["datePublished"] else []
            | none => [])
        ++ (match (getDate page config .updated).1 with
            | some dm => if dm ≠ "" then ["dateModified"] else []
            | none => [])
        ++ (if page.meta.author.getD config.site_author ≠ "" then ["author"] else [])
        ++ (match breadcrumbItems opts page config with
            | some _ => ["breadcrumb"]
            | none => []) := by
  unfold jsonLdSchema
  cases (getDate page config .created).1 <;>
    cases (getDate page config .updated).1 <;>
      cases breadcrumbItems opts page config <;>
        (split_ifs <;> simp_all [apply_ite (List.map (Prod.fst : String × JVal → String))])

/-- C10: the JSON-LD injector always appends exactly one script element, whose
top-level object always carries the keys `@context`, `@type`, `name` and `url`
— `name` and `url` are present even when the resolved title or canonical URL is
the empty string — while `description`, `datePublished`, `dateModified` and
`author` are present iff their resolved values are truthy (non-empty /
successfully parsed). -/
theorem json_ld_keys (opts : PluginOptions) (page : Page) (config : SiteConfig) :
    (∀ head : List Tag, injectJsonLd opts page config head
        = head ++ [Tag.script "application/ld+json" (.obj (jsonLdSchema opts page config))]) ∧
    ("@context" ∈ (jsonLdSchema opts page config).map Prod.fst ∧
     "@type" ∈ (jsonLdSchema opts page config).map Prod.fst ∧
     "name" ∈ (jsonLdSchema opts page config).map Prod.fst ∧
     "url" ∈ (jsonLdSchema opts page config).map Prod.fst) ∧
    ("description" ∈ (jsonLdSchema opts page config).map Prod.fst ↔
      getPageDescription page config ≠ "") ∧
    ("datePublished" ∈ (jsonLdSchema opts page config).map Prod.fst ↔
      pyTruthyOpt (getDate page config .created).1) ∧
    ("dateModified" ∈ (jsonLdSchema opts page config).map Prod.fst ↔
      pyTruthyOpt (getDate page config .updated).1) ∧
    ("author" ∈ (jsonLdSchema opts page config).map Prod.fst ↔
      page.meta.author.getD config.site_author ≠ "") := by
  constructor
  · intro head
    unfold injectJsonLd
    rfl
  · rw [jsonLdSchema_keys]
    rcases hdp : (getDate page config .created).1 with _ | dp <;>
      rcases hdm : (getDate page config .updated).1 with _ | dm <;>
        rcases hbc : breadcrumbItems opts page config with _ | items <;>
          (refine ⟨⟨?_, ?_, ?_, ?_⟩, ?_, ?_, ?_, ?_⟩ <;>
             (split_ifs <;> simp_all [pyTruthyOpt]))

theorem isDig_digitChar : ∀ k, k < 10 → isDig (digitChar k) = true := by decide

theorem digitVal_digitChar : ∀ k, k < 10 → digitVal (digitChar k) = k := by decide

theorem parseDigit_digitChar (k : Nat) (hk : k < 10) : parseDigit (digitChar k) = some k := by
  unfold parseDigit
  simp [isDig_digitChar k hk, digitVal_digitChar k hk]

theorem parse2_pad2 (n : Nat) (hn : n < 100) (rest : List Char) :
    parse2 (pad2 n ++ rest) = some (n, rest) := by
  have h1 : n / 10 < 10 := by omega
  have h2 : n % 10 < 10 := by omega
  simp [pad2, parse2, parseDigit_digitChar _ h1, parseDigit_digitChar _ h2]
  omega

theorem parse2_pad2_nil (n : Nat) (hn : n < 100) : parse2 (pad2 n) = some (n, []) := by
  have := parse2_pad2 n hn []
  simpa using this

theorem parse4_pad4 (n : Nat) (hn : n < 10000) (rest : List Char) :
    parse4 (pad4 n ++ rest) = some (n, rest) := by
  have h1 : n / 1000 < 10 := by omega
  have h2 : n / 100 % 10 < 10 := by omega
  have h3 : n / 10 % 10 < 10 := by omega
  have h4 : n % 10 < 10 := by omega
  simp [pad4, parse4, parseDigit_digitChar _ h1, parseDigit_digitChar _ h2,
        parseDigit_digitChar _ h3, parseDigit_digitChar _ h4]
  omega

theorem parse6_pad6 (n : Nat) (hn : n < 1000000) (rest : List Char) :
    parse6 (pad6 n ++ rest) = some (n, rest) := by
  have h1 : n / 100000 < 10 := by omega
  have h2 : n / 10000 % 10 < 10 := by omega
  have h3 : n / 1000 % 10 < 10 := by omega
  have h4 : n / 100 % 10 < 10 := by omega
  have h5 : n / 10 % 10 < 10 := by omega
  have h6 : n % 10 < 10 := by omega
  simp [pad6, parse6, parseDigit_digitChar _ h1, parseDigit_digitChar _ h2,
        parseDigit_digitChar _ h3, parseDigit_digitChar _ h4, parseDigit_digitChar _ h5,
        parseDigit_digitChar _ h6]
  omega

theorem expectChar_cons (c : Char) (rest : List Char) :
    expectChar c (c :: rest) = some rest := by
  simp [expectChar]

theorem parseOffPart_iso (y mo d h mi s micro : Nat) (off : Int)
    (hoff : off.natAbs < 1440) :
    parseOffPart y mo d h mi s micro
        ((if 0 ≤ off then '+' else '-') ::
          (pad2 (off.natAbs / 60) ++ ':' :: pad2 (off.natAbs % 60)))
      = some ⟨y, mo, d, h, mi, s, micro, off⟩ := by
  have h1 : off.natAbs / 60 < 100 := by omega
  have h2 : off.natAbs % 60 < 100 := by omega
  by_cases hpos : (0 : Int) ≤ off
  · simp only [hpos, if_true, parseOffPart]
    simp [parse2_pad2 _ h1, expectChar_cons, parse2_pad2_nil _ h2]
    refine ⟨⟨by omega, by omega⟩, ?_⟩
    rw [abs_of_nonneg hpos]
    omega
  · simp only [hpos, if_false, parseOffPart]
    simp [parse2_pad2 _ h1, expectChar_cons, parse2_pad2_nil _ h2]
    refine ⟨⟨by omega, by omega⟩, ?_⟩
    rw [abs_of_neg (by omega)]
    omega

set_option maxHeartbeats 1000000 in
theorem parseChars_isoChars (dt : PyDateTime) (hv : validDT dt) :
    parseChars (isoChars dt) = some dt := by
  obtain ⟨y, mo, d, h, mi, s, micro, off⟩ := dt
  simp only [validDT] at hv
  obtain ⟨hy1, hy2, hmo1, hmo2, hd1, hd2, hhr, hmin, hsec, hmicro, hoff⟩ := hv
  have hp4 := parse4_pad4 y (by omega)
  have hpmo := parse2_pad2 mo (by omega)
  have hpd := parse2_pad2 d (by omega)
  have hph := parse2_pad2 h (by omega)
  have hpmi := parse2_pad2 mi (by omega)
  have hps := parse2_pad2 s (by omega)
  have hp6 := parse6_pad6 micro (by omega)
  have hoffp := parseOffPart_iso y mo d h mi s micro off (by omega)
  have hrange : 1 ≤ mo ∧ mo ≤ 12 ∧ 1 ≤ d ∧ d ≤ 31 ∧ h < 24 ∧ mi < 60 ∧ s < 60 := by omega
  by_cases hmic : micro = 0
  · subst hmic
    by_cases hpos : (0 : Int) ≤ off
    · rw [if_pos hpos] at hoffp
      simp only [isoChars]
      simp only [parseChars, hp4, expectChar_cons, hpmo, hpd, hph, hpmi, hps,
                 if_pos hrange]
      simp [hpos, hoffp]
    · rw [if_neg hpos] at hoffp
      simp only [isoChars]
      simp only [parseChars, hp4, expectChar_cons, hpmo, hpd, hph, hpmi, hps,
                 if_pos hrange]
      simp [hpos, hoffp]
  · simp only [isoChars]
    simp only [parseChars, hp4, expectChar_cons, hpmo, hpd, hph, hpmi, hps,
               if_pos hrange]
    simp [hmic, hp6, hoffp]

/-- C5: for every in-range aware datetime, `resolveDate` on its canonical
ISO-8601 rendering (with or without fractional seconds — the microseconds are
printed iff non-zero) parses it back and re-emits exactly the same string,
preserving the original UTC offset sign `±HH:MM` and never normalizing to `Z`,
with no warning. -/
theorem date_roundtrip (dt : PyDateTime) (page : Page) (config : SiteConfig)
    (hv : validDT dt) :
    getDate
        { page with meta := { page.meta with document_dates_created := some (isoformat dt) } }
        config .created
      = (some (isoformat dt), []) := by
  have hdata : (isoformat dt).data = isoChars dt := rfl
  have hne : isoformat dt ≠ "" := by
    intro hcon
    have : isoChars dt = [] := by
      rw [← hdata, hcon]
    obtain ⟨y, mo, d, h, mi, s, micro, off⟩ := dt
    simp [isoChars, pad4] at this
  have hp := parseChars_isoChars dt hv
  simp only [getDate, metaDateValue]
  rw [if_pos hne]
  unfold parseDateString
  rw [hdata, hp]

/-- C5 witness: the spec's example date round-trips exactly, keeping `+08:00`. -/
theorem date_roundtrip_witness :
    getDate ⟨"p/", "P", false,
        ⟨none, none, none, none, some "2025-07-23T07:55:08.813591+08:00", none⟩, [], "p.md"⟩
      ⟨some "S", "", none, "", [], []⟩ .created
      = (some "2025-07-23T07:55:08.813591+08:00", []) := by
  have he : isoformat ⟨2025, 7, 23, 7, 55, 8, 813591, 480⟩
      = "2025-07-23T07:55:08.813591+08:00" := by decide
  have h := date_roundtrip ⟨2025, 7, 23, 7, 55, 8, 813591, 480⟩
      ⟨"p/", "P", false, ⟨none, none, none, none, none, none⟩, [], "p.md"⟩
      ⟨some "S", "", none, "", [], []⟩ (by decide)
  rw [he] at h
  exact h

end AdvancedSEO
